import Mathlib

/-!
# Verification of the `rubato` window-function module

Shallow embedding of `src/windows.rs` over the real numbers: the six-variant
`WindowFunction` selector, the three base window generators (`blackman_harris`,
`blackman`, `hann`), the dispatcher `make_window` with its elementwise squaring
post-transform, and the fitted cutoff estimator `calculate_cutoff`.

Floating-point arithmetic of the source is modelled by exact real arithmetic;
decimal literals become the corresponding rationals coerced into `ℝ`.
-/

open Real

/-- The six window families, mirroring the Rust `enum WindowFunction`. -/
inductive WindowFunction where
  | Blackman
  | Blackman2
  | BlackmanHarris
  | BlackmanHarris2
  | Hann
  | Hann2
deriving DecidableEq, Repr

/-- Standard Blackman-Harris window (periodic), from `blackman_harris` in
`src/windows.rs`: index `x` of the returned vector holds
`a - b·cos(2πx/n) + c·cos(4πx/n) - d·cos(6πx/n)`. -/
noncomputable def blackman_harris (npoints : ℕ) : List ℝ :=
  (List.range npoints).map (fun (x : ℕ) =>
    0.35875 - 0.48829 * Real.cos (2 * π * (x : ℝ) / (npoints : ℝ))
      + 0.14128 * Real.cos (4 * π * (x : ℝ) / (npoints : ℝ))
      - 0.01168 * Real.cos (6 * π * (x : ℝ) / (npoints : ℝ)))

/-- Standard Blackman window (periodic), from `blackman` in `src/windows.rs`. -/
noncomputable def blackman (npoints : ℕ) : List ℝ :=
  (List.range npoints).map (fun (x : ℕ) =>
    0.42 - 0.5 * Real.cos (2 * π * (x : ℝ) / (npoints : ℝ))
      + 0.08 * Real.cos (4 * π * (x : ℝ) / (npoints : ℝ)))

/-- Standard Hann window (periodic), from `hann` in `src/windows.rs`. -/
noncomputable def hann (npoints : ℕ) : List ℝ :=
  (List.range npoints).map (fun (x : ℕ) =>
    0.5 - 0.5 * Real.cos (2 * π * (x : ℝ) / (npoints : ℝ)))

/-- First match of `make_window` in `src/windows.rs`: pick the base generator
for the family. -/
noncomputable def baseWindow (npoints : ℕ) : WindowFunction → List ℝ
  | .BlackmanHarris | .BlackmanHarris2 => blackman_harris npoints
  | .Blackman | .Blackman2 => blackman npoints
  | .Hann | .Hann2 => hann npoints

/-- Second match of `make_window` in `src/windows.rs`: square every coefficient
elementwise iff the family is a squared variant, otherwise leave the window
unchanged. -/
noncomputable def applySquaring (windowfunc : WindowFunction) (window : List ℝ) : List ℝ :=
  match windowfunc with
  | .Blackman2 | .BlackmanHarris2 | .Hann2 => window.map (fun y => y * y)
  | .Blackman | .BlackmanHarris | .Hann => window

/-- Dispatcher `make_window` from `src/windows.rs`: base generator followed by
the squaring post-transform. -/
noncomputable def make_window (npoints : ℕ) (windowfunc : WindowFunction) : List ℝ :=
  applySquaring windowfunc (baseWindow npoints windowfunc)

/-- Cutoff estimator, from `calculate_cutoff` in `src/windows.rs`:
`1 / (k1/n + k2/(n·n) + k3/(n·n·n) + 1)` with the per-family fitted triple. -/
noncomputable def calculate_cutoff (npoints : ℕ) (windowfunc : WindowFunction) : ℝ :=
  let k : ℝ × ℝ × ℝ :=
    match windowfunc with
    | .BlackmanHarris => (8.041443677716476, 55.9506779343387, 898.0287985384213)
    | .BlackmanHarris2 => (13.745202940783823, 121.73532586374934, 5964.163279612051)
    | .Blackman => (6.159598046201173, 18.926415097606878, 653.4247430458968)
    | .Blackman2 => (9.506235102129398, 79.13120634953742, 1502.2316160588925)
    | .Hann => (3.3481080887677166, 10.106519434875038, 78.96345249024414)
    | .Hann2 => (5.38751148378734, 29.69451915489501, 184.82117462266237)
  let k1 := k.1
  let k2 := k.2.1
  let k3 := k.2.2
  let one : ℝ := 1
  let npoints_t : ℝ := npoints
  one / (k1 / npoints_t
    + k2 / (npoints_t * npoints_t)
    + k3 / (npoints_t * npoints_t * npoints_t)
    + one)

/-! ## Spec-side definitions

These restate the formulas in the words of the specification document, to be
compared with the definitions embedded from the source. -/

/-- Spec formula for the Hann window coefficient: `w[x] = 0.5 − 0.5·cos(2πx/n)`
with `n = npoints` as the numeric type. -/
noncomputable def hannSpecCoef (npoints x : ℕ) : ℝ :=
  0.5 - 0.5 * Real.cos (2 * π * x / npoints)

/-- Spec formula for the Blackman window coefficient:
`w[x] = 0.42 − 0.5·cos(2πx/n) + 0.08·cos(4πx/n)`. -/
noncomputable def blackmanSpecCoef (npoints x : ℕ) : ℝ :=
  0.42 - 0.5 * Real.cos (2 * π * x / npoints) + 0.08 * Real.cos (4 * π * x / npoints)

/-- Spec formula for the Blackman-Harris window coefficient:
`w[x] = 0.35875 − 0.48829·cos(2πx/n) + 0.14128·cos(4πx/n) − 0.01168·cos(6πx/n)`. -/
noncomputable def blackmanHarrisSpecCoef (npoints x : ℕ) : ℝ :=
  0.35875 - 0.48829 * Real.cos (2 * π * x / npoints)
    + 0.14128 * Real.cos (4 * π * x / npoints)
    - 0.01168 * Real.cos (6 * π * x / npoints)

/-- Spec table of fit constants `(k1, k2, k3)` per family, transcribed from the
constant table in the specification. -/
noncomputable def specFitConstants : WindowFunction → ℝ × ℝ × ℝ
  | .Hann => (3.3481080887677166, 10.106519434875038, 78.96345249024414)
  | .Hann2 => (5.38751148378734, 29.69451915489501, 184.82117462266237)
  | .Blackman => (6.159598046201173, 18.926415097606878, 653.4247430458968)
  | .Blackman2 => (9.506235102129398, 79.13120634953742, 1502.2316160588925)
  | .BlackmanHarris => (8.041443677716476, 55.9506779343387, 898.0287985384213)
  | .BlackmanHarris2 => (13.745202940783823, 121.73532586374934, 5964.163279612051)

/-- Spec formula for the cutoff: `1 / (k1/n + k2/n² + k3/n³ + 1)` with the
family's triple from the spec constant table. -/
noncomputable def estimateCutoffSpec (npoints : ℕ) (family : WindowFunction) : ℝ :=
  let k := specFitConstants family
  let n : ℝ := npoints
  1 / (k.1 / n + k.2.1 / n ^ 2 + k.2.2 / n ^ 3 + 1)

/-! ## Basic lemmas about the generators -/

lemma blackman_harris_length (n : ℕ) : (blackman_harris n).length = n := by
  rw [blackman_harris]
  simp only [List.length_map, List.length_range]

lemma blackman_length (n : ℕ) : (blackman n).length = n := by
  rw [blackman]
  simp only [List.length_map, List.length_range]

lemma hann_length (n : ℕ) : (hann n).length = n := by
  rw [hann]
  simp only [List.length_map, List.length_range]

lemma hann_getD (n x : ℕ) (hx : x < n) :
    (hann n).getD x 0 = 0.5 - 0.5 * Real.cos (2 * π * x / n) := by
  have hlen : x < (hann n).length := by rw [hann_length]; exact hx
  rw [List.getD_eq_getElem _ _ hlen]
  simp only [hann, List.getElem_map, List.getElem_range]

lemma blackman_getD (n x : ℕ) (hx : x < n) :
    (blackman n).getD x 0 =
      0.42 - 0.5 * Real.cos (2 * π * x / n) + 0.08 * Real.cos (4 * π * x / n) := by
  have hlen : x < (blackman n).length := by rw [blackman_length]; exact hx
  rw [List.getD_eq_getElem _ _ hlen]
  simp only [blackman, List.getElem_map, List.getElem_range]

lemma blackman_harris_getD (n x : ℕ) (hx : x < n) :
    (blackman_harris n).getD x 0 =
      0.35875 - 0.48829 * Real.cos (2 * π * x / n)
        + 0.14128 * Real.cos (4 * π * x / n)
        - 0.01168 * Real.cos (6 * π * x / n) := by
  have hlen : x < (blackman_harris n).length := by rw [blackman_harris_length]; exact hx
  rw [List.getD_eq_getElem _ _ hlen]
  simp only [blackman_harris, List.getElem_map, List.getElem_range]

lemma getD_map_mul_self (l : List ℝ) (i : ℕ) (hi : i < l.length) :
    (l.map (fun y => y * y)).getD i 0 = (l.getD i 0) ^ 2 := by
  rw [List.getD_eq_getElem _ _ (by simpa using hi), List.getD_eq_getElem _ _ hi,
    List.getElem_map]
  ring

/-! ## Range of the window coefficients -/

lemma blackman_poly_bounds (c : ℝ) (h1 : -1 ≤ c) (h2 : c ≤ 1) :
    0 ≤ 0.42 - 0.5 * c + 0.08 * (2 * c ^ 2 - 1)
      ∧ 0.42 - 0.5 * c + 0.08 * (2 * c ^ 2 - 1) ≤ 1 := by
  constructor
  · nlinarith [mul_nonneg (by linarith : (0:ℝ) ≤ 1 - c) (by linarith : (0:ℝ) ≤ 2.125 - c)]
  · nlinarith [mul_nonneg (by linarith : (0:ℝ) ≤ 1 + c) (by linarith : (0:ℝ) ≤ 4.125 - c)]

lemma blackman_harris_poly_bounds (c : ℝ) (h1 : -1 ≤ c) (h2 : c ≤ 1) :
    0 ≤ 0.35875 - 0.48829 * c + 0.14128 * (2 * c ^ 2 - 1) - 0.01168 * (4 * c ^ 3 - 3 * c)
      ∧ 0.35875 - 0.48829 * c + 0.14128 * (2 * c ^ 2 - 1) - 0.01168 * (4 * c ^ 3 - 3 * c)
        ≤ 1 := by
  have ha : (0:ℝ) ≤ 1 - c := by linarith
  have hb : (0:ℝ) ≤ 1 + c := by linarith
  constructor
  · nlinarith [mul_nonneg (mul_nonneg ha ha) (by linarith : (0:ℝ) ≤ 0.18912 - 0.04672 * c), ha]
  · have hq : (0:ℝ) ≤ 0.04672 * c ^ 2 - 0.32928 * c + 0.78253 := by
      nlinarith [mul_nonneg ha (by linarith : (0:ℝ) ≤ 0.28256 - 0.04672 * c)]
    nlinarith [mul_nonneg hb hq]

lemma hann_getD_mem (n x : ℕ) (hx : x < n) :
    0 ≤ (hann n).getD x 0 ∧ (hann n).getD x 0 ≤ 1 := by
  rw [hann_getD n x hx]
  have h1 := Real.neg_one_le_cos (2 * π * (x : ℝ) / (n : ℝ))
  have h2 := Real.cos_le_one (2 * π * (x : ℝ) / (n : ℝ))
  constructor <;> linarith

lemma blackman_getD_mem (n x : ℕ) (hx : x < n) :
    0 ≤ (blackman n).getD x 0 ∧ (blackman n).getD x 0 ≤ 1 := by
  rw [blackman_getD n x hx]
  have e4 : 4 * π * (x : ℝ) / (n : ℝ) = 2 * (2 * π * (x : ℝ) / (n : ℝ)) := by ring
  rw [e4, Real.cos_two_mul]
  exact blackman_poly_bounds _ (Real.neg_one_le_cos _) (Real.cos_le_one _)

lemma blackman_harris_getD_mem (n x : ℕ) (hx : x < n) :
    0 ≤ (blackman_harris n).getD x 0 ∧ (blackman_harris n).getD x 0 ≤ 1 := by
  rw [blackman_harris_getD n x hx]
  have e4 : 4 * π * (x : ℝ) / (n : ℝ) = 2 * (2 * π * (x : ℝ) / (n : ℝ)) := by ring
  have e6 : 6 * π * (x : ℝ) / (n : ℝ) = 3 * (2 * π * (x : ℝ) / (n : ℝ)) := by ring
  rw [e4, e6, Real.cos_two_mul, Real.cos_three_mul]
  exact blackman_harris_poly_bounds _ (Real.neg_one_le_cos _) (Real.cos_le_one _)

/-! ## Lemmas about the cutoff formula -/

lemma cutoff_denom_gt_one (k1 k2 k3 a : ℝ) (hk1 : 0 < k1) (hk2 : 0 < k2) (hk3 : 0 < k3)
    (ha : 0 < a) :
    1 < k1 / a + k2 / (a * a) + k3 / (a * a * a) + 1 := by
  have h1 : 0 < k1 / a := div_pos hk1 ha
  have h2 : 0 < k2 / (a * a) := div_pos hk2 (by positivity)
  have h3 : 0 < k3 / (a * a * a) := div_pos hk3 (by positivity)
  linarith

lemma cutoff_formula_lt (k1 k2 k3 a b : ℝ) (hk1 : 0 < k1) (hk2 : 0 < k2) (hk3 : 0 < k3)
    (ha : 1 ≤ a) (hab : a < b) :
    1 / (k1 / a + k2 / (a * a) + k3 / (a * a * a) + 1)
        < 1 / (k1 / b + k2 / (b * b) + k3 / (b * b * b) + 1) ∧
      1 / (k1 / b + k2 / (b * b) + k3 / (b * b * b) + 1) < 1 := by
  have ha0 : 0 < a := lt_of_lt_of_le one_pos ha
  have hb0 : 0 < b := lt_trans ha0 hab
  have hsq : a * a < b * b := mul_self_lt_mul_self ha0.le hab
  have hcube : a * a * a < b * b * b := by nlinarith
  have h1 : k1 / b < k1 / a := div_lt_div_of_pos_left hk1 ha0 hab
  have h2 : k2 / (b * b) < k2 / (a * a) := div_lt_div_of_pos_left hk2 (by positivity) hsq
  have h3 : k3 / (b * b * b) < k3 / (a * a * a) :=
    div_lt_div_of_pos_left hk3 (by positivity) hcube
  have hDb : 1 < k1 / b + k2 / (b * b) + k3 / (b * b * b) + 1 :=
    cutoff_denom_gt_one k1 k2 k3 b hk1 hk2 hk3 hb0
  have hDb0 : 0 < k1 / b + k2 / (b * b) + k3 / (b * b * b) + 1 := lt_trans one_pos hDb
  have hDab : k1 / b + k2 / (b * b) + k3 / (b * b * b) + 1
      < k1 / a + k2 / (a * a) + k3 / (a * a * a) + 1 := by linarith
  exact ⟨one_div_lt_one_div_of_lt hDb0 hDab, (div_lt_one hDb0).mpr hDb⟩

lemma cutoff_formula_mem (k1 k2 k3 a : ℝ) (hk1 : 0 < k1) (hk2 : 0 < k2) (hk3 : 0 < k3)
    (ha : 0 < a) :
    0 < 1 / (k1 / a + k2 / (a * a) + k3 / (a * a * a) + 1) ∧
      1 / (k1 / a + k2 / (a * a) + k3 / (a * a * a) + 1) < 1 := by
  have hD : 1 < k1 / a + k2 / (a * a) + k3 / (a * a * a) + 1 :=
    cutoff_denom_gt_one k1 k2 k3 a hk1 hk2 hk3 ha
  have hD0 : 0 < k1 / a + k2 / (a * a) + k3 / (a * a * a) + 1 := lt_trans one_pos hD
  exact ⟨one_div_pos.mpr hD0, (div_lt_one hD0).mpr hD⟩

/-! ## Claim theorems -/

/-- C3: for every `npoints` and every family, `make_window` returns a sequence
of length exactly `npoints`. -/
theorem make_window_length (npoints : ℕ) (f : WindowFunction) :
    (make_window npoints f).length = npoints := by
  cases f <;>
    simp [make_window, baseWindow, applySquaring,
      blackman_harris_length, blackman_length, hann_length]

/-- C9: for every family, `make_window 0 f` returns the empty sequence: the
coefficient loop runs zero iterations, so the division by the coerced
`npoints` is never evaluated. -/
theorem make_window_zero (f : WindowFunction) : make_window 0 f = [] := by
  cases f <;>
    simp [make_window, baseWindow, applySquaring, blackman_harris, blackman, hann]

/-- C1: for every `npoints ≥ 1` and index `x < npoints`, the three base window
generators compute exactly the spec formulas (periodic convention, denominator
`npoints`). -/
theorem base_windows_match_spec (npoints x : ℕ) (hn : 1 ≤ npoints) (hx : x < npoints) :
    (hann npoints).getD x 0 = hannSpecCoef npoints x ∧
      (blackman npoints).getD x 0 = blackmanSpecCoef npoints x ∧
      (blackman_harris npoints).getD x 0 = blackmanHarrisSpecCoef npoints x := by
  refine ⟨?_, ?_, ?_⟩
  · rw [hann_getD npoints x hx]
    simp only [hannSpecCoef]
  · rw [blackman_getD npoints x hx]
    simp only [blackmanSpecCoef]
  · rw [blackman_harris_getD npoints x hx]
    simp only [blackmanHarrisSpecCoef]

/-- C1 witness: the equality of source generator and spec formula at
`npoints = 16`, `x = 3`. -/
theorem base_windows_match_spec_witness :
    1 ≤ 16 ∧ 3 < 16 ∧
      ((hann 16).getD 3 0 = hannSpecCoef 16 3 ∧
        (blackman 16).getD 3 0 = blackmanSpecCoef 16 3 ∧
        (blackman_harris 16).getD 3 0 = blackmanHarrisSpecCoef 16 3) :=
  ⟨by decide, by decide, base_windows_match_spec 16 3 (by decide) (by decide)⟩

/-- C2: for every `npoints ≥ 1` and every family, `calculate_cutoff` computes
exactly the spec formula `1 / (k1/n + k2/n² + k3/n³ + 1)` with the spec's
constant table. -/
theorem calculate_cutoff_matches_spec (npoints : ℕ) (f : WindowFunction) (hn : 1 ≤ npoints) :
    calculate_cutoff npoints f = estimateCutoffSpec npoints f := by
  cases f <;>
    · simp only [calculate_cutoff, estimateCutoffSpec, specFitConstants]
      ring_nf

/-- C2 witness: source cutoff equals the spec formula at `npoints = 32`,
family Hann. -/
theorem calculate_cutoff_matches_spec_witness :
    1 ≤ 32 ∧ calculate_cutoff 32 WindowFunction.Hann = estimateCutoffSpec 32 WindowFunction.Hann :=
  ⟨by decide, calculate_cutoff_matches_spec 32 WindowFunction.Hann (by decide)⟩

/-- C4: for every `npoints` and index `i < npoints`, each squared-variant
coefficient is the square of the corresponding base coefficient, and the three
base variants are returned unsquared. -/
theorem make_window_squared_variants (n i : ℕ) (hi : i < n) :
    (make_window n WindowFunction.Hann2).getD i 0
        = ((make_window n WindowFunction.Hann).getD i 0) ^ 2 ∧
      (make_window n WindowFunction.Blackman2).getD i 0
        = ((make_window n WindowFunction.Blackman).getD i 0) ^ 2 ∧
      (make_window n WindowFunction.BlackmanHarris2).getD i 0
        = ((make_window n WindowFunction.BlackmanHarris).getD i 0) ^ 2 ∧
      make_window n WindowFunction.Hann = hann n ∧
      make_window n WindowFunction.Blackman = blackman n ∧
      make_window n WindowFunction.BlackmanHarris = blackman_harris n := by
  refine ⟨?_, ?_, ?_, rfl, rfl, rfl⟩
  · show ((hann n).map (fun y => y * y)).getD i 0 = ((hann n).getD i 0) ^ 2
    exact getD_map_mul_self _ _ (by rw [hann_length]; exact hi)
  · show ((blackman n).map (fun y => y * y)).getD i 0 = ((blackman n).getD i 0) ^ 2
    exact getD_map_mul_self _ _ (by rw [blackman_length]; exact hi)
  · show ((blackman_harris n).map (fun y => y * y)).getD i 0
        = ((blackman_harris n).getD i 0) ^ 2
    exact getD_map_mul_self _ _ (by rw [blackman_harris_length]; exact hi)

/-- C4 witness: the squaring law and identity of the base variants at
`npoints = 16`, `i = 4`. -/
theorem make_window_squared_variants_witness :
    4 < 16 ∧
      ((make_window 16 WindowFunction.Hann2).getD 4 0
          = ((make_window 16 WindowFunction.Hann).getD 4 0) ^ 2 ∧
        (make_window 16 WindowFunction.Blackman2).getD 4 0
          = ((make_window 16 WindowFunction.Blackman).getD 4 0) ^ 2 ∧
        (make_window 16 WindowFunction.BlackmanHarris2).getD 4 0
          = ((make_window 16 WindowFunction.BlackmanHarris).getD 4 0) ^ 2 ∧
        make_window 16 WindowFunction.Hann = hann 16 ∧
        make_window 16 WindowFunction.Blackman = blackman 16 ∧
        make_window 16 WindowFunction.BlackmanHarris = blackman_harris 16) :=
  ⟨by decide, make_window_squared_variants 16 4 (by decide)⟩

/-- C5: for each fixed family the estimated cutoff is strictly increasing in
`npoints` and stays strictly below 1. -/
theorem calculate_cutoff_strictMono (f : WindowFunction) (m n : ℕ) (hm : 1 ≤ m) (hmn : m < n) :
    calculate_cutoff m f < calculate_cutoff n f ∧ calculate_cutoff n f < 1 := by
  have ham : (1 : ℝ) ≤ (m : ℝ) := by exact_mod_cast hm
  have hab : (m : ℝ) < (n : ℝ) := by exact_mod_cast hmn
  cases f <;>
    · simp only [calculate_cutoff]
      exact cutoff_formula_lt _ _ _ _ _ (by norm_num) (by norm_num) (by norm_num) ham hab

/-- C5 witness: strict monotonicity toward 1 at the spot-check pair
`npoints = 128` versus `256`, family Blackman. -/
theorem calculate_cutoff_strictMono_witness :
    1 ≤ 128 ∧ 128 < 256 ∧
      (calculate_cutoff 128 WindowFunction.Blackman
          < calculate_cutoff 256 WindowFunction.Blackman ∧
        calculate_cutoff 256 WindowFunction.Blackman < 1) :=
  ⟨by decide, by decide,
    calculate_cutoff_strictMono WindowFunction.Blackman 128 256 (by decide) (by decide)⟩

/-- C6 counterexample: at `npoints = 0` the cutoff does not lie in the open
interval (0, 1) — in the real-arithmetic model every `k/0` is 0, so the value
is exactly 1 (the floating-point source produces 0 there, likewise outside
(0, 1)). -/
theorem calculate_cutoff_zero_not_in_Ioo :
    ¬ (0 < calculate_cutoff 0 WindowFunction.Hann
        ∧ calculate_cutoff 0 WindowFunction.Hann < 1) := by
  simp only [calculate_cutoff]
  norm_num

/-- C6 (amended): for every `npoints ≥ 1` and every family, the cutoff returned
by `calculate_cutoff` lies in the open interval (0, 1). -/
theorem calculate_cutoff_in_Ioo (npoints : ℕ) (f : WindowFunction) (hn : 1 ≤ npoints) :
    0 < calculate_cutoff npoints f ∧ calculate_cutoff npoints f < 1 := by
  have ha : (0 : ℝ) < (npoints : ℝ) := by exact_mod_cast hn
  cases f <;>
    · simp only [calculate_cutoff]
      exact cutoff_formula_mem _ _ _ _ (by norm_num) (by norm_num) (by norm_num) ha

/-- C6 witness: the cutoff lies in (0, 1) at `npoints = 128`, family Hann. -/
theorem calculate_cutoff_in_Ioo_witness :
    1 ≤ 128 ∧
      (0 < calculate_cutoff 128 WindowFunction.Hann
        ∧ calculate_cutoff 128 WindowFunction.Hann < 1) :=
  ⟨by decide, calculate_cutoff_in_Ioo 128 WindowFunction.Hann (by decide)⟩

/-- C10: for every `npoints ≥ 1`, every family (base and squared) and every
index `i < npoints`, the coefficient lies in the closed interval [0, 1] under
exact real arithmetic. -/
theorem make_window_coeffs_in_unit_interval (n i : ℕ) (f : WindowFunction)
    (hn : 1 ≤ n) (hi : i < n) :
    0 ≤ (make_window n f).getD i 0 ∧ (make_window n f).getD i 0 ≤ 1 := by
  have hsq : ∀ y : ℝ, 0 ≤ y → y ≤ 1 → 0 ≤ y ^ 2 ∧ y ^ 2 ≤ 1 := by
    intro y h0 h1
    constructor
    · positivity
    · nlinarith
  cases f
  case Hann => exact hann_getD_mem n i hi
  case Blackman => exact blackman_getD_mem n i hi
  case BlackmanHarris => exact blackman_harris_getD_mem n i hi
  case Hann2 =>
    have hb := hann_getD_mem n i hi
    have hmap : (make_window n WindowFunction.Hann2).getD i 0 = ((hann n).getD i 0) ^ 2 := by
      show ((hann n).map (fun y => y * y)).getD i 0 = ((hann n).getD i 0) ^ 2
      exact getD_map_mul_self _ _ (by rw [hann_length]; exact hi)
    rw [hmap]
    exact hsq _ hb.1 hb.2
  case Blackman2 =>
    have hb := blackman_getD_mem n i hi
    have hmap : (make_window n WindowFunction.Blackman2).getD i 0
        = ((blackman n).getD i 0) ^ 2 := by
      show ((blackman n).map (fun y => y * y)).getD i 0 = ((blackman n).getD i 0) ^ 2
      exact getD_map_mul_self _ _ (by rw [blackman_length]; exact hi)
    rw [hmap]
    exact hsq _ hb.1 hb.2
  case BlackmanHarris2 =>
    have hb := blackman_harris_getD_mem n i hi
    have hmap : (make_window n WindowFunction.BlackmanHarris2).getD i 0
        = ((blackman_harris n).getD i 0) ^ 2 := by
      show ((blackman_harris n).map (fun y => y * y)).getD i 0
          = ((blackman_harris n).getD i 0) ^ 2
      exact getD_map_mul_self _ _ (by rw [blackman_harris_length]; exact hi)
    rw [hmap]
    exact hsq _ hb.1 hb.2

/-- C10 witness: the coefficient lies in [0, 1] at `npoints = 16`, `i = 4`,
family squared Blackman-Harris. -/
theorem make_window_coeffs_in_unit_interval_witness :
    1 ≤ 16 ∧ 4 < 16 ∧
      (0 ≤ (make_window 16 WindowFunction.BlackmanHarris2).getD 4 0
        ∧ (make_window 16 WindowFunction.BlackmanHarris2).getD 4 0 ≤ 1) :=
  ⟨by decide, by decide,
    make_window_coeffs_in_unit_interval 16 4 WindowFunction.BlackmanHarris2
      (by decide) (by decide)⟩

/-- C7 counterexample: at the odd length `npoints = 9` the Hann coefficient at
index `9 / 2 = 4` is `1 − sin²(π/18) ≈ 0.9698`, which is not within `1e-6` of
1.0, refuting the peak claim for odd lengths. -/
theorem make_window_peak_fails_at_nine :
    ¬ |(make_window 9 WindowFunction.Hann).getD (9 / 2) 0 - 1| ≤ 1 / 1000000 := by
  have h92 : 9 / 2 = 4 := by norm_num
  have hc9 : Real.cos (π / 9) = 1 - 2 * Real.sin (π / 18) ^ 2 := by
    have e2 : (π / 9 : ℝ) = 2 * (π / 18) := by ring
    rw [e2, Real.cos_two_mul', Real.cos_sq']
    ring
  have hw : (make_window 9 WindowFunction.Hann).getD (9 / 2) 0
      = 1 - Real.sin (π / 18) ^ 2 := by
    rw [h92]
    show (hann 9).getD 4 0 = _
    rw [hann_getD 9 4 (by norm_num)]
    have e : 2 * π * ((4 : ℕ) : ℝ) / ((9 : ℕ) : ℝ) = π - π / 9 := by push_cast; ring
    rw [e, Real.cos_pi_sub, hc9]
    ring
  have hs : (0.001 : ℝ) < Real.sin (π / 18) := by
    have h1 : (0 : ℝ) < π / 18 := by positivity
    have h2 : (π / 18 : ℝ) ≤ 1 := by
      have := Real.pi_le_four
      linarith
    have hcube := Real.sin_gt_sub_cube h1 h2
    have hp1 : (3 : ℝ) < π := Real.pi_gt_three
    have hp2 : π < 3.15 := Real.pi_lt_d2
    nlinarith [sq_nonneg (π / 18), mul_pos h1 h1]
  have hs2 : (1 / 1000000 : ℝ) < Real.sin (π / 18) ^ 2 := by nlinarith
  rw [hw, show (1 : ℝ) - Real.sin (π / 18) ^ 2 - 1 = -(Real.sin (π / 18) ^ 2) by ring,
    abs_neg, abs_of_nonneg (sq_nonneg _), not_le]
  exact hs2

/-- C7 (amended): for every even `npoints ≥ 8` the three base families peak
exactly at 1.0 at index `npoints / 2` (hence trivially within `1e-6`); for odd
`npoints` the claim fails. -/
theorem make_window_peak_at_center_even (n : ℕ) (h8 : 8 ≤ n) (he : n % 2 = 0) :
    (make_window n WindowFunction.Hann).getD (n / 2) 0 = 1 ∧
      (make_window n WindowFunction.Blackman).getD (n / 2) 0 = 1 ∧
      (make_window n WindowFunction.BlackmanHarris).getD (n / 2) 0 = 1 := by
  obtain ⟨m, rfl⟩ : ∃ m, n = 2 * m := ⟨n / 2, by omega⟩
  have hd : 2 * m / 2 = m := by omega
  have hlt : m < 2 * m := by omega
  have hmr : ((m : ℕ) : ℝ) ≠ 0 := by
    exact_mod_cast (by omega : (m : ℕ) ≠ 0)
  have hang2 : 2 * π * ((m : ℕ) : ℝ) / ((2 * m : ℕ) : ℝ) = π := by
    push_cast
    field_simp
    ring
  have hang4 : 4 * π * ((m : ℕ) : ℝ) / ((2 * m : ℕ) : ℝ) = 2 * π := by
    push_cast
    field_simp
    ring
  have hang6 : 6 * π * ((m : ℕ) : ℝ) / ((2 * m : ℕ) : ℝ) = π + 2 * π := by
    push_cast
    field_simp
    ring
  rw [hd]
  refine ⟨?_, ?_, ?_⟩
  · show (hann (2 * m)).getD m 0 = 1
    rw [hann_getD _ _ hlt, hang2, Real.cos_pi]
    norm_num
  · show (blackman (2 * m)).getD m 0 = 1
    rw [blackman_getD _ _ hlt, hang2, hang4, Real.cos_pi, Real.cos_two_pi]
    norm_num
  · show (blackman_harris (2 * m)).getD m 0 = 1
    rw [blackman_harris_getD _ _ hlt, hang2, hang4, hang6, Real.cos_two_pi,
      Real.cos_add_two_pi, Real.cos_pi]
    norm_num

/-- C7 witness: the exact peak of 1.0 at index 8 for `npoints = 16`. -/
theorem make_window_peak_at_center_even_witness :
    8 ≤ 16 ∧ 16 % 2 = 0 ∧
      ((make_window 16 WindowFunction.Hann).getD (16 / 2) 0 = 1 ∧
        (make_window 16 WindowFunction.Blackman).getD (16 / 2) 0 = 1 ∧
        (make_window 16 WindowFunction.BlackmanHarris).getD (16 / 2) 0 = 1) :=
  ⟨by decide, by decide, make_window_peak_at_center_even 16 (by decide) (by decide)⟩

/-- C8 counterexample: at `npoints = 16` the Hann coefficient at index 0 is
exactly 0 (since `cos 0 = 1`), refuting the claim that the boundary value is
nonzero for every base family. -/
theorem make_window_hann_index_zero_eq_zero :
    (make_window 16 WindowFunction.Hann).getD 0 0 = 0 := by
  show (hann 16).getD 0 0 = 0
  rw [hann_getD 16 0 (by norm_num)]
  have e : 2 * π * ((0 : ℕ) : ℝ) / ((16 : ℕ) : ℝ) = 0 := by push_cast; ring
  rw [e, Real.cos_zero]
  norm_num

/-- C8 (amended): for every `npoints ≥ 1` the index-0 coefficient is exactly 0
for Hann and Blackman, while for Blackman-Harris it is the nonzero value
0.00006 (`= 0.35875 − 0.48829 + 0.14128 − 0.01168`). -/
theorem make_window_index_zero_values (n : ℕ) (hn : 1 ≤ n) :
    (make_window n WindowFunction.Hann).getD 0 0 = 0 ∧
      (make_window n WindowFunction.Blackman).getD 0 0 = 0 ∧
      (make_window n WindowFunction.BlackmanHarris).getD 0 0 = 0.00006 ∧
      (0.00006 : ℝ) ≠ 0 := by
  have h0 : 0 < n := hn
  have e2 : 2 * π * ((0 : ℕ) : ℝ) / ((n : ℕ) : ℝ) = 0 := by push_cast; ring
  have e4 : 4 * π * ((0 : ℕ) : ℝ) / ((n : ℕ) : ℝ) = 0 := by push_cast; ring
  have e6 : 6 * π * ((0 : ℕ) : ℝ) / ((n : ℕ) : ℝ) = 0 := by push_cast; ring
  refine ⟨?_, ?_, ?_, by norm_num⟩
  · show (hann n).getD 0 0 = 0
    rw [hann_getD n 0 h0, e2, Real.cos_zero]
    norm_num
  · show (blackman n).getD 0 0 = 0
    rw [blackman_getD n 0 h0, e2, e4, Real.cos_zero]
    norm_num
  · show (blackman_harris n).getD 0 0 = 0.00006
    rw [blackman_harris_getD n 0 h0, e2, e4, e6, Real.cos_zero]
    norm_num

/-- C8 witness: the boundary values at `npoints = 16`. -/
theorem make_window_index_zero_values_witness :
    1 ≤ 16 ∧
      ((make_window 16 WindowFunction.Hann).getD 0 0 = 0 ∧
        (make_window 16 WindowFunction.Blackman).getD 0 0 = 0 ∧
        (make_window 16 WindowFunction.BlackmanHarris).getD 0 0 = 0.00006 ∧
        (0.00006 : ℝ) ≠ 0) :=
  ⟨by decide, make_window_index_zero_values 16 (by decide)⟩
